import Mathlib

/-!
Shallow embedding of the statistics aggregator of the
`github-stats-transparent` repository (`src/gst/stats.py` and
`src/gst/queries.py`).

Network responses are modelled as already-parsed, schema-shaped values:
the GraphQL schema guarantees `nameWithOwner`, `login` and language
`name` to be non-null strings when present, and the hand-written queries
always request `pageInfo.hasNextPage` and `pageInfo.endCursor`, so those
are modelled with the corresponding Lean types; a field whose absence
the Python code observes through `.get` defaulting keeps an `Option`
(or a default value when absence and the default are indistinguishable).
An environment (`Env`) fixes the finite sequence of GraphQL overview
pages the server will serve and the REST responses per repository; once
the page script is exhausted the server serves the empty object, exactly
as the code treats a `None` query result.  Python `float` arithmetic on
language proportions is modelled with exact rationals, and Python
exceptions escaping a call (assertion failure, `ZeroDivisionError`) are
modelled by `Option`.
-/

namespace GST

/-- Mirrors `pageInfo` of a repository collection.  `hasNextPage` comes
from `.get("hasNextPage", False)` (an absent key and a `false` value
behave identically).  `endCursor` distinguishes an absent key (`none`,
where `.get("endCursor", cur)` keeps the old cursor) from a present key
holding JSON `null` (`some none`) or a string (`some (some s)`). -/
structure PageInfo where
  hasNextPage : Bool := false
  endCursor : Option (Option String) := none
  deriving DecidableEq, Repr

/-- Mirrors one element of `repo["languages"]["edges"]`: `size` defaults
to 0, the node's `name` defaults to `"Other"` at the use site, and the
node's `color` may be absent or null (`None` either way). -/
structure LangEdge where
  size : Int := 0
  nodeName : Option String := none
  nodeColor : Option String := none
  deriving DecidableEq, Repr

/-- Mirrors one element of a collection's `nodes` list.
`stargazersTotalCount` is `repo["stargazers"]["totalCount"]` with the
code's default 0, `forkCount` is `repo.get("forkCount", 0)`. -/
structure RepoNode where
  nameWithOwner : String
  stargazersTotalCount : Int := 0
  forkCount : Int := 0
  languages : List LangEdge := []
  deriving DecidableEq, Repr

/-- Mirrors `repositories` / `repositoriesContributedTo` of a page:
`.get("pageInfo", {})` and `.get("nodes", [])`. -/
structure RepoCollection where
  pageInfo : PageInfo := {}
  nodes : List RepoNode := []
  deriving DecidableEq, Repr

/-- Mirrors one parsed response of the `repos_overview` GraphQL query,
after the `.get("data", {}).get("viewer", {})` drilling: `viewerName`
is `viewer.get("name", None)` (absent or null gives `none`),
`viewerLogin` is the `login` key (absent gives `none`, defaulted to
`"No Name"` at the use site).  The defaults model the empty object the
code substitutes for a `None` query result. -/
structure Page where
  viewerName : Option String := none
  viewerLogin : Option String := none
  repositories : RepoCollection := {}
  repositoriesContributedTo : RepoCollection := {}
  deriving DecidableEq, Repr

/-- Value of one entry of the `self._languages` dict: `size`,
`occurrences` and `color` are written when the language is first seen,
`prop` only by the proportion step after the pagination loop (absent
before that, hence `Option`).  The float `100 * (size / total)` is
modelled exactly: `prop` keeps the fraction as the unreduced pair
`(100 * size, total)` of its operands, and `propVal` below reads off
its value as a rational number. -/
structure LangStat where
  size : Int
  occurrences : Int
  color : Option String
  prop : Option (Int × Int) := none
  deriving DecidableEq, Repr

/-- Rational value of a stored proportion; an absent proportion reads
as 0. -/
def propVal : Option (Int × Int) → ℚ
  | none => 0
  | some (n, d) => (n : ℚ) / (d : ℚ)

/-- Constructor arguments of `Stats.__init__` that the claims need:
the target username and the three filter values. -/
structure Config where
  username : String
  excludeRepos : Finset String := ∅
  excludeLangs : Finset String := ∅
  considerForkedRepos : Bool := false

/-- Mutable fields of a `Stats` object.  Each optional field starts as
`None` in `__init__`; `ignoredRepos` is only created inside
`get_stats`, which the accessors respect by short-circuiting on
`repos`.  The Python sets of repository names are determinized as
duplicate-free lists in insertion order: every operation the code
performs on them (membership, guarded add, union, `len`, iteration
under a commutative sum) is insensitive to that choice. -/
structure StatsState where
  name : Option String := none
  stargazers : Option Int := none
  forks : Option Int := none
  totalContributions : Option Int := none
  languages : Option (List (String × LangStat)) := none
  repos : Option (List String) := none
  ignoredRepos : Option (List String) := none
  linesChanged : Option (Int × Int) := none
  views : Option Int := none
  deriving DecidableEq

/-- Union of two repository-name sets (Python `r | i`), in insertion
order. -/
def setUnion (r i : List String) : List String :=
  r ++ i.filter fun x => decide (x ∉ r)

/-- Working accumulator of one `get_stats` call: the fields the
pagination loop mutates.  The languages dict is an insertion-ordered
association list, like a Python dict. -/
structure Accum where
  name : Option String
  stargazers : Int
  forks : Int
  languages : List (String × LangStat)
  repos : List String
  ignoredRepos : List String
  deriving DecidableEq

namespace Stats

/-- Inner loop over `repo["languages"]["edges"]` (stats.py lines
128-141): resolve the language name with default `"Other"`, skip
excluded languages, add size and bump occurrences for a known language,
otherwise append a fresh entry keeping insertion order. -/
def processLangEdge (cfg : Config) (langs : List (String × LangStat))
    (e : LangEdge) : List (String × LangStat) :=
  let n := e.nodeName.getD "Other"
  if n ∈ cfg.excludeLangs then langs
  else if (langs.lookup n).isSome then
    langs.map fun kv =>
      if kv.1 = n then
        (kv.1, { kv.2 with
                  size := kv.2.size + e.size
                  occurrences := kv.2.occurrences + 1 })
      else kv
  else langs ++ [(n, ⟨e.size, 1, e.nodeColor, none⟩)]

/-- Body of `for repo in repos` (stats.py lines 120-141): skip a
repository already recorded or excluded by name, otherwise record it
and accumulate stargazers, forks and languages. -/
def processRepo (cfg : Config) (st : Accum) (r : RepoNode) : Accum :=
  if r.nameWithOwner ∈ st.repos ∨ r.nameWithOwner ∈ cfg.excludeRepos then st
  else
    { st with
      repos := st.repos ++ [r.nameWithOwner],
      stargazers := st.stargazers + r.stargazersTotalCount,
      forks := st.forks + r.forkCount,
      languages := r.languages.foldl (processLangEdge cfg) st.languages }

/-- Body of the contributed-repositories loop when forked repositories
are not considered (stats.py lines 114-118): add the name to the
ignored set unless already ignored or excluded. -/
def addIgnored (cfg : Config) (ign : List String) (r : RepoNode) :
    List String :=
  if r.nameWithOwner ∈ ign ∨ r.nameWithOwner ∈ cfg.excludeRepos then ign
  else ign ++ [r.nameWithOwner]

/-- Viewer name for one page (stats.py lines 91-98): the `name` field
if present and non-null, else the `login` field with default
`"No Name"`. -/
def pageName (p : Page) : String :=
  match p.viewerName with
  | some s => s
  | none => p.viewerLogin.getD "No Name"

/-- The `repos` list the accumulation loop runs over (stats.py lines
110-112): owned nodes, with contributed nodes appended when forked
repositories are considered. -/
def pageRepos (cfg : Config) (p : Page) : List RepoNode :=
  if cfg.considerForkedRepos then
    p.repositories.nodes ++ p.repositoriesContributedTo.nodes
  else p.repositories.nodes

/-- One iteration of the `while True` body before the pagination test
(stats.py lines 91-141): set the viewer name, grow the ignored set when
forked repositories are not considered, then fold the accumulation loop
over the page's repositories. -/
def processPage (cfg : Config) (st : Accum) (p : Page) : Accum :=
  let st1 := { st with name := some (pageName p) }
  let st2 :=
    if cfg.considerForkedRepos then st1
    else
      { st1 with
        ignoredRepos :=
          p.repositoriesContributedTo.nodes.foldl (addIgnored cfg)
            st1.ignoredRepos }
  (pageRepos cfg p).foldl (processRepo cfg) st2

/-- Cursor update of stats.py lines 146-151: `.get("endCursor", cur)`
keeps the old cursor when the key is absent and otherwise takes the
key's value (which may itself be JSON null). -/
def advanceCursor (cur : Option String) (info : PageInfo) : Option String :=
  match info.endCursor with
  | none => cur
  | some v => v

/-- Loop-continuation test of stats.py lines 143-145: either collection
reports a next page. -/
def hasNext (p : Page) : Bool :=
  p.repositories.pageInfo.hasNextPage ||
    p.repositoriesContributedTo.pageInfo.hasNextPage

/-- The `while True` pagination loop (stats.py lines 82-153) against a
finite server script.  Each iteration issues one `repos_overview` query
with the current cursor pair (recorded in the returned list, in order)
and receives the next scripted page; once the script is exhausted the
server answers with the empty object, which has no next pages and so
ends the loop.  Returns the final accumulator and the issued queries'
cursor pairs. -/
def runLoop (cfg : Config) :
    List Page → Option String → Option String → Accum →
      Accum × List (Option String × Option String)
  | [], oc, cc, st => (processPage cfg st {}, [(oc, cc)])
  | p :: rest, oc, cc, st =>
    let st' := processPage cfg st p
    if hasNext p then
      let r := runLoop cfg rest
        (advanceCursor oc p.repositories.pageInfo)
        (advanceCursor cc p.repositoriesContributedTo.pageInfo) st'
      (r.1, (oc, cc) :: r.2)
    else (st', [(oc, cc)])

/-- Aggregate byte size of the languages dict (stats.py line 157). -/
def langsTotal (langs : List (String × LangStat)) : Int :=
  (langs.map (fun kv => kv.2.size)).sum

/-- Iteration of the proportion loop of stats.py lines 158-159 over the
dict entries: each entry's division by a zero total raises
`ZeroDivisionError` in Python, modelled by `none`; otherwise
`prop = 100 * (size / total)` is written as its exact fraction. -/
def setProps (total : Int) : List (String × LangStat) →
    Option (List (String × LangStat))
  | [] => some []
  | kv :: rest =>
    if total = 0 then none
    else
      (setProps total rest).map fun rest' =>
        (kv.1, { kv.2 with prop := some (100 * kv.2.size, total) }) :: rest'

/-- Proportion step of stats.py lines 157-159: sum the sizes, then
write every entry's proportion.  An empty dict performs no division at
all. -/
def computeProps (langs : List (String × LangStat)) :
    Option (List (String × LangStat)) :=
  setProps (langsTotal langs) langs

/-- Fresh accumulator of stats.py lines 74-78: zero totals, empty dict
and sets.  The viewer name keeps its previous value until the first
page is processed, as `get_stats` does not reset `self._name`. -/
def initAccum (s : StatsState) : Accum :=
  { name := s.name, stargazers := 0, forks := 0, languages := [],
    repos := [], ignoredRepos := [] }

/-- Whole `get_stats` call (stats.py lines 69-159) against a scripted
page list: run the pagination loop from null cursors, then the
proportion step.  `none` models the call raising (division by zero);
on normal completion the state holds every computed field and the
number of issued GraphQL queries is returned alongside. -/
def getStats (cfg : Config) (pages : List Page) (s : StatsState) :
    Option (StatsState × Nat) :=
  let r := runLoop cfg pages none none (initAccum s)
  (computeProps r.1.languages).map fun langs =>
    ({ s with
        name := r.1.name,
        stargazers := some r.1.stargazers,
        forks := some r.1.forks,
        languages := some langs,
        repos := some r.1.repos,
        ignoredRepos := some r.1.ignoredRepos }, r.2.length)

end Stats

/-- One element of a contributor entry's `weeks` list, with the code's
defaults `week.get("a", 0)` and `week.get("d", 0)`. -/
structure Week where
  a : Int := 0
  d : Int := 0
  deriving DecidableEq, Repr

/-- Shape of a contributor entry's `author` field as `lines_changed`
inspects it: not a mapping (`notDict`, which fails the `isinstance`
check), or a mapping whose `login` key may be absent (defaulted to the
empty string at the use site).  An absent `author` key behaves as an
empty mapping through `.get("author", {})` and is therefore
`dict none`. -/
inductive AuthorVal where
  | notDict
  | dict (login : Option String)
  deriving DecidableEq, Repr

/-- One contributor entry of a `/repos/<repo>/stats/contributors`
response: either not a mapping at all, or a mapping with an author
shape and a `weeks` list (absent key gives the empty list). -/
inductive CEntry where
  | notDict
  | entry (author : AuthorVal) (weeks : List Week)
  deriving DecidableEq, Repr

/-- Environment of one run: the scripted overview pages, the per-year
contribution totals of the merged `all_contribs` response (each the
`totalContributions` value of one entry of the viewer mapping, absent
keys defaulting to 0 at the use site), the contributor-stats REST
response per repository, and the traffic-views REST response per
repository (the `count` of each element of its `views` list, absent
keys defaulting to 0). -/
structure Env where
  pages : List Page := []
  yearTotals : List (Option Int) := []
  contribStats : String → List CEntry := fun _ => []
  viewsResp : String → List Int := fun _ => []

namespace Stats

/-- Contribution of one contributor entry to the `lines_changed` totals
(stats.py lines 301-314): malformed entries and entries whose author
login differs from the username contribute nothing; a matching entry
contributes the sums of its weekly `a` and `d` values. -/
def entryContrib (username : String) : CEntry → Int × Int
  | .notDict => (0, 0)
  | .entry .notDict _ => (0, 0)
  | .entry (.dict login) weeks =>
    if login.getD "" = username then
      ((weeks.map Week.a).sum, (weeks.map Week.d).sum)
    else (0, 0)

/-- Totals accumulated from one repository's contributor-stats
response. -/
def repoLines (username : String) (entries : List CEntry) : Int × Int :=
  entries.foldl
    (fun t e =>
      (t.1 + (entryContrib username e).1, t.2 + (entryContrib username e).2))
    (0, 0)

/-- The `(additions, deletions)` pair accumulated by `lines_changed`
over a set of repositories; Python iterates the set in some order, and
addition commutes, so the pair is the set-indexed sum. -/
def linesTotal (username : String) (rs : List String)
    (resp : String → List CEntry) : Int × Int :=
  ((rs.map fun r => (repoLines username (resp r)).1).sum,
   (rs.map fun r => (repoLines username (resp r)).2).sum)

/-- View count accumulated by `views` (stats.py lines 333-337) over a
set of repositories. -/
def viewsTotal (rs : List String) (resp : String → List Int) : Int :=
  (rs.map fun r => (resp r).sum).sum

/-- The `name` accessor (stats.py lines 161-172): return the cached
value, otherwise run `get_stats` and return the freshly set value.
Results are `(value, state after the call, GraphQL/REST requests
issued)`; `none` models the call raising (a failed assertion or an
exception out of `get_stats`). -/
def nameAcc (cfg : Config) (env : Env) (s : StatsState) :
    Option (String × StatsState × Nat) :=
  match s.name with
  | some v => some (v, s, 0)
  | none =>
    (getStats cfg env.pages s).bind fun r =>
      r.1.name.map fun v => (v, r.1, r.2)

/-- The `stargazers` accessor (stats.py lines 174-185). -/
def stargazersAcc (cfg : Config) (env : Env) (s : StatsState) :
    Option (Int × StatsState × Nat) :=
  match s.stargazers with
  | some v => some (v, s, 0)
  | none =>
    (getStats cfg env.pages s).bind fun r =>
      r.1.stargazers.map fun v => (v, r.1, r.2)

/-- The `forks` accessor (stats.py lines 187-198). -/
def forksAcc (cfg : Config) (env : Env) (s : StatsState) :
    Option (Int × StatsState × Nat) :=
  match s.forks with
  | some v => some (v, s, 0)
  | none =>
    (getStats cfg env.pages s).bind fun r =>
      r.1.forks.map fun v => (v, r.1, r.2)

/-- The `languages` accessor (stats.py lines 200-211). -/
def languagesAcc (cfg : Config) (env : Env) (s : StatsState) :
    Option (List (String × LangStat) × StatsState × Nat) :=
  match s.languages with
  | some v => some (v, s, 0)
  | none =>
    (getStats cfg env.pages s).bind fun r =>
      r.1.languages.map fun v => (v, r.1, r.2)

/-- The `repos` accessor (stats.py lines 227-238). -/
def reposAcc (cfg : Config) (env : Env) (s : StatsState) :
    Option (List String × StatsState × Nat) :=
  match s.repos with
  | some v => some (v, s, 0)
  | none =>
    (getStats cfg env.pages s).bind fun r =>
      r.1.repos.map fun v => (v, r.1, r.2)

/-- The `all_repos` accessor (stats.py lines 240-254): the union of the
included and ignored sets when both are available (the short-circuiting
`and` never touches the ignored attribute before `get_stats` created
it), otherwise a fresh `get_stats` first. -/
def allReposAcc (cfg : Config) (env : Env) (s : StatsState) :
    Option (List String × StatsState × Nat) :=
  match s.repos, s.ignoredRepos with
  | some r, some i => some (setUnion r i, s, 0)
  | _, _ =>
    (getStats cfg env.pages s).bind fun r =>
      match r.1.repos, r.1.ignoredRepos with
      | some a, some b => some (setUnion a b, r.1, r.2)
      | _, _ => none

/-- The `total_contributions` accessor (stats.py lines 256-285): on a
cache miss it issues the `contrib_years` query and then the merged
`all_contribs` query (two GraphQL requests) and sums every entry's
`totalContributions` with default 0. -/
def totalContributionsAcc (env : Env) (s : StatsState) :
    Option (Int × StatsState × Nat) :=
  match s.totalContributions with
  | some v => some (v, s, 0)
  | none =>
    let total := (env.yearTotals.map fun t => t.getD 0).sum
    some (total, { s with totalContributions := some total }, 2)

/-- The `lines_changed` accessor (stats.py lines 287-317): on a cache
miss it reads `all_repos` (possibly running `get_stats`), issues one
contributor-stats REST request per repository in the union, and caches
the accumulated pair. -/
def linesChangedAcc (cfg : Config) (env : Env) (s : StatsState) :
    Option ((Int × Int) × StatsState × Nat) :=
  match s.linesChanged with
  | some v => some (v, s, 0)
  | none =>
    (allReposAcc cfg env s).bind fun r =>
      let t := linesTotal cfg.username r.1 env.contribStats
      some (t, { r.2.1 with linesChanged := some t }, r.2.2 + r.1.length)

/-- The `views` accessor (stats.py lines 319-340): on a cache miss it
reads `repos` (possibly running `get_stats`), issues one traffic-views
REST request per included repository, and caches the total. -/
def viewsAcc (cfg : Config) (env : Env) (s : StatsState) :
    Option (Int × StatsState × Nat) :=
  match s.views with
  | some v => some (v, s, 0)
  | none =>
    (reposAcc cfg env s).bind fun r =>
      let t := viewsTotal r.1 env.viewsResp
      some (t, { r.2.1 with views := some t }, r.2.2 + r.1.length)

end Stats

/-- Parsed JSON values of REST bodies; the empty mapping `query_rest`
returns on exhaustion is `obj []`. -/
inductive RJson where
  | obj (fields : List (String × RJson))
  | arr (elems : List RJson)
  | num (n : Int)
  | str (s : String)

/-- One REST response as `query_rest`'s primary (aiohttp) transport
observes it: an HTTP status and the parsed JSON body, where `none`
stands for JSON `null` (the `result is not None` check). -/
structure RestResponse where
  status : Int
  body : Option RJson := none

namespace Queries

/-- Body of the `for _ in range(60)` loop of `query_rest` (queries.py
lines 90-141), on the primary transport: with `n` iterations left,
attempt number `k` (the server is a function from attempt index to
response) and `sl` seconds already slept, a 202 status sleeps 2 seconds
and retries, any other status returns the parsed body when it is not
`null` and otherwise falls through to the next iteration; an exhausted
loop returns the empty mapping.  The result is
`(returned body, attempts made, seconds slept)`. -/
def queryRestGo (server : Nat → RestResponse) :
    Nat → Nat → Nat → RJson × Nat × Nat
  | 0, k, sl => (.obj [], k, sl)
  | n + 1, k, sl =>
    let r := server k
    if r.status = 202 then queryRestGo server n (k + 1) (sl + 2)
    else
      match r.body with
      | some b => (b, k + 1, sl)
      | none => queryRestGo server n (k + 1) sl

/-- The whole `query_rest` call: a 60-attempt budget from attempt 0. -/
def queryRest (server : Nat → RestResponse) : RJson × Nat × Nat :=
  queryRestGo server 60 0 0

end Queries

/-! Concrete inputs used by counterexamples and witnesses. -/

/-- Default configuration: no filters, forked repositories not
considered. -/
def exCfg : Config := { username := "u" }

/-- Configuration excluding the repository name `"X"`. -/
def exCfgExcl : Config := { username := "u", excludeRepos := {"X"} }

/-- Owned repository with one language. -/
def exRepoA : RepoNode :=
  { nameWithOwner := "A"
    stargazersTotalCount := 3
    forkCount := 1
    languages := [{ size := 10, nodeName := some "Py" }] }

/-- Second owned repository with two languages. -/
def exRepoB : RepoNode :=
  { nameWithOwner := "B"
    stargazersTotalCount := 2
    forkCount := 0
    languages := [{ size := 30, nodeName := some "Py" },
                  { size := 10, nodeName := some "C" }] }

/-- Excluded repository (name `"X"`) carrying stats of its own. -/
def exRepoX : RepoNode :=
  { nameWithOwner := "X"
    stargazersTotalCount := 7
    forkCount := 5
    languages := [{ size := 99, nodeName := some "Rust" }] }

/-- First page of a two-page script: reports a next page with cursor
`"abc"`. -/
def exPage1 : Page :=
  { viewerName := some "John"
    repositories :=
      { pageInfo := { hasNextPage := true, endCursor := some (some "abc") }
        nodes := [exRepoA] } }

/-- Second page of a two-page script: no further pages. -/
def exPage2 : Page :=
  { repositories := { nodes := [exRepoB] } }

/-- Page whose owned collection reports no next page (with an end
cursor `"X"` present) while the contributed collection reports a next
page with end cursor `"Y"`. -/
def exPageC3 : Page :=
  { repositories :=
      { pageInfo := { hasNextPage := false, endCursor := some (some "X") } }
    repositoriesContributedTo :=
      { pageInfo := { hasNextPage := true, endCursor := some (some "Y") } } }

/-- Page on which the same identifier `"A"` occurs among the owned and
among the contributed nodes. -/
def exPageC4 : Page :=
  { repositories := { nodes := [{ nameWithOwner := "A" }] }
    repositoriesContributedTo := { nodes := [{ nameWithOwner := "A" }] } }

/-- Page with a single repository whose only language has byte size 0,
making the aggregate language size zero with a non-empty language
mapping. -/
def exPageC8 : Page :=
  { repositories :=
      { nodes := [{ nameWithOwner := "Z"
                    languages := [{ size := 0, nodeName := some "C" }] }] } }

/-- Page carrying the excluded repository `"X"` among the owned and the
contributed nodes, next to an ordinary repository. -/
def exPageC5 : Page :=
  { repositories := { nodes := [exRepoX, exRepoB] }
    repositoriesContributedTo := { nodes := [exRepoX] } }

/-- REST server answering 202 on every attempt. -/
def exServer202 : Nat → RestResponse := fun _ => { status := 202 }

/-- REST server answering status 500 with a non-null JSON body on every
attempt. -/
def exServer500 : Nat → RestResponse :=
  fun _ => { status := 500, body := some (.str "err") }

/-- Environment with an empty page script and no REST data. -/
def exEnv : Env := {}

/-- State produced by `get_stats` against the empty page script: the
single query is answered by the empty object, giving the fallback name
and empty aggregates. -/
def exStateEmptyRun : StatsState :=
  { name := some "No Name"
    stargazers := some 0
    forks := some 0
    languages := some []
    repos := some []
    ignoredRepos := some [] }

/-- Sum of the `prop` fields of a language mapping (absent `prop` reads
as 0), the quantity the proportion invariant constrains. -/
def propSum (langs : List (String × LangStat)) : ℚ :=
  (langs.map fun kv => propVal kv.2.prop).sum

/-- Decision of `lines_changed`'s `isinstance` checks for one
contributor entry: a mapping whose author field is a mapping. -/
def entryWellFormed : CEntry → Bool
  | .entry (.dict _) _ => true
  | _ => false

/-- Author login of a well-formed contributor entry (with the code's
default `""` for an absent login), `none` for a malformed entry. -/
def entryLoginD : CEntry → Option String
  | .entry (.dict l) _ => some (l.getD "")
  | _ => none

/-- Weeks list of a contributor entry. -/
def entryWeeks : CEntry → List Week
  | .entry _ w => w
  | .notDict => []

/-- Whether a contributor entry is well formed and its author login
equals the target username. -/
def entryMatches (u : String) (e : CEntry) : Bool :=
  entryLoginD e == some u

/-- Names of a list of repository nodes. -/
def nodeNames (l : List RepoNode) : List String :=
  l.map RepoNode.nameWithOwner

/-- All owned-repository names occurring across a page script. -/
def ownedNames : List Page → List String
  | [] => []
  | p :: rest => nodeNames p.repositories.nodes ++ ownedNames rest

/-- All contributed-repository names occurring across a page script. -/
def contribNames : List Page → List String
  | [] => []
  | p :: rest => nodeNames p.repositoriesContributedTo.nodes ++ contribNames rest

/-- Removal of every node named `n` from a collection. -/
def filterColl (n : String) (c : RepoCollection) : RepoCollection :=
  { c with nodes := c.nodes.filter fun r => r.nameWithOwner != n }

/-- Removal of every node named `n` from both collections of a page,
keeping the page's viewer fields and pagination data. -/
def filterPage (n : String) (p : Page) : Page :=
  { p with
    repositories := filterColl n p.repositories
    repositoriesContributedTo := filterColl n p.repositoriesContributedTo }

/-! Helper lemmas. -/

namespace Queries

/-- With every remaining attempt answered 202, the retry loop consumes
its whole budget, sleeping 2 seconds per retry, and ends on the empty
mapping. -/
theorem queryRestGo_all202 (server : Nat → RestResponse) :
    ∀ (n k sl : Nat), (∀ j, (server j).status = 202) →
      queryRestGo server n k sl = (.obj [], k + n, sl + 2 * n) := by
  intro n
  induction n with
  | zero => intro k sl _; simp [queryRestGo]
  | succ m ih =>
    intro k sl h
    rw [queryRestGo, if_pos (h k), ih (k + 1) (sl + 2) h]
    simp only [Prod.mk.injEq, true_and]
    omega

/-- With every remaining attempt answered 202 or carrying a null body,
the retry loop consumes its whole budget and ends on the empty
mapping. -/
theorem queryRestGo_gap (server : Nat → RestResponse) :
    ∀ (n k sl : Nat),
      (∀ j, j < n → (server (k + j)).status = 202 ∨ (server (k + j)).body = none) →
      (queryRestGo server n k sl).1 = .obj [] ∧
        (queryRestGo server n k sl).2.1 = k + n := by
  intro n
  induction n with
  | zero => intro k sl _; simp [queryRestGo]
  | succ m ih =>
    intro k sl h
    have h0 := h 0 (by omega)
    simp only [Nat.add_zero] at h0
    have hrest : ∀ j, j < m →
        (server (k + 1 + j)).status = 202 ∨ (server (k + 1 + j)).body = none := by
      intro j hj
      have := h (j + 1) (by omega)
      simpa [Nat.add_assoc, Nat.add_comm 1 j] using this
    rw [queryRestGo]
    rcases h0 with h0 | h0
    · rw [if_pos h0]
      have := ih (k + 1) (sl + 2) hrest
      refine ⟨this.1, ?_⟩
      rw [this.2]; omega
    · by_cases hs : (server k).status = 202
      · rw [if_pos hs]
        have := ih (k + 1) (sl + 2) hrest
        refine ⟨this.1, ?_⟩
        rw [this.2]; omega
      · rw [if_neg hs, h0]
        have := ih (k + 1) sl hrest
        refine ⟨this.1, ?_⟩
        rw [this.2]; omega

end Queries

/-! Claim theorems. -/

/-- Claim C6: for every REST path whose server answers HTTP 202 on every
attempt, `query_rest` makes exactly 60 attempts, sleeps a fixed 2
seconds between attempts (120 seconds in total), then returns the empty
mapping instead of raising. -/
theorem c6_rest_202_exhaustion (server : Nat → RestResponse)
    (h : ∀ j, (server j).status = 202) :
    Queries.queryRest server = (.obj [], 60, 120) := by
  rw [Queries.queryRest, Queries.queryRestGo_all202 server 60 0 0 h]

/-- Witness for C6: the always-202 server makes `query_rest` return the
empty mapping after exactly 60 attempts and 120 seconds of sleep. -/
theorem c6_rest_202_exhaustion_witness :
    Queries.queryRest exServer202 = (.obj [], 60, 120) :=
  c6_rest_202_exhaustion exServer202 fun _ => rfl

/-- Claim C7 counterexample: a server that always answers status 500 (neither
200 nor 202) with a non-null JSON body makes `query_rest` return that
body after a single attempt — not the empty result after retry
exhaustion — because the primary transport never checks for status
200. -/
theorem c7_rest_status_counterexample :
    (exServer500 0).status ≠ 200 ∧ (exServer500 0).status ≠ 202 ∧
      Queries.queryRest exServer500 = (.str "err", 1, 0) :=
  ⟨by decide, by decide, rfl⟩

/-- Claim C7 amended: on the primary transport an HTTP 202 response triggers
a retry (with a 2-second sleep); any response of any other status —
200 or otherwise — whose parsed body is not null returns that body
immediately; a non-202 response with a null body falls through to
another attempt; and only when all 60 attempts are 202s or null bodies
does the call return the empty result. -/
theorem c7_rest_status_amended (server : Nat → RestResponse) :
    (∀ n k sl, (server k).status = 202 →
      Queries.queryRestGo server (n + 1) k sl =
        Queries.queryRestGo server n (k + 1) (sl + 2)) ∧
    (∀ n k sl b, (server k).status ≠ 202 → (server k).body = some b →
      Queries.queryRestGo server (n + 1) k sl = (b, k + 1, sl)) ∧
    ((∀ j, j < 60 → (server j).status = 202 ∨ (server j).body = none) →
      (Queries.queryRest server).1 = .obj [] ∧
        (Queries.queryRest server).2.1 = 60) := by
  refine ⟨?_, ?_, ?_⟩
  · intro n k sl h
    rw [Queries.queryRestGo, if_pos h]
  · intro n k sl b hs hb
    rw [Queries.queryRestGo, if_neg hs, hb]
  · intro h
    have := Queries.queryRestGo_gap server 60 0 0 (by simpa using h)
    exact ⟨this.1, this.2⟩

/-- Witness for C7 amended: the 500-status server returns its body on
the first attempt, and the always-202 server exhausts the budget into
the empty result. -/
theorem c7_rest_status_amended_witness :
    Queries.queryRestGo exServer500 60 0 0 = (.str "err", 1, 0) ∧
      ((Queries.queryRest exServer202).1 = .obj [] ∧
        (Queries.queryRest exServer202).2.1 = 60) :=
  ⟨(c7_rest_status_amended exServer500).2.1 59 0 0 (.str "err")
      (by decide) rfl,
    (c7_rest_status_amended exServer202).2.2 fun j _ => Or.inl rfl⟩

/-- With a non-zero total, the proportion loop succeeds and writes the
fraction `100 * size / total` into every entry. -/
theorem setProps_of_total_ne (total : Int) (h : total ≠ 0) :
    ∀ langs : List (String × LangStat),
      Stats.setProps total langs = some (langs.map fun kv =>
        (kv.1, { kv.2 with prop := some (100 * kv.2.size, total) })) := by
  intro langs
  induction langs with
  | nil => rfl
  | cons kv rest ih =>
    rw [Stats.setProps, if_neg h, ih]
    rfl

/-- Sum of the proportion values written by the proportion loop with
divisor `t`. -/
theorem propSum_map (t : Int) (langs : List (String × LangStat)) :
    propSum (langs.map fun kv =>
        (kv.1, { kv.2 with prop := some (100 * kv.2.size, t) })) =
      100 * ((((langs.map fun kv => kv.2.size).sum : ℤ) : ℚ) / (t : ℚ)) := by
  induction langs with
  | nil => simp [propSum]
  | cons a l ih =>
    simp only [propSum, List.map_cons, List.sum_cons, propVal] at ih ⊢
    rw [ih]
    push_cast
    ring

/-- The sizes of a language mapping are untouched by the proportion
loop's rewriting of `prop`. -/
theorem langsTotal_map_prop (t : Int) (langs : List (String × LangStat)) :
    Stats.langsTotal (langs.map fun kv =>
        (kv.1, { kv.2 with prop := some (100 * kv.2.size, t) })) =
      Stats.langsTotal langs := by
  induction langs with
  | nil => rfl
  | cons a l ih =>
    simp only [Stats.langsTotal, List.map_cons, List.sum_cons] at ih ⊢
    rw [ih]

/-- Any successful proportion computation whose output carries non-zero
aggregate size sums its proportion values to exactly 100. -/
theorem computeProps_propSum (L L' : List (String × LangStat))
    (h : Stats.computeProps L = some L') (h0 : Stats.langsTotal L' ≠ 0) :
    propSum L' = 100 := by
  by_cases ht : Stats.langsTotal L = 0
  · cases L with
    | nil =>
      have hL' : some ([] : List (String × LangStat)) = some L' := h
      have : L' = [] := by injection hL'; simp_all
      rw [this] at h0
      exact absurd rfl h0
    | cons kv rest =>
      rw [Stats.computeProps, Stats.setProps, if_pos ht] at h
      exact absurd h (by simp)
  · rw [Stats.computeProps, setProps_of_total_ne _ ht] at h
    have hL' : L' = L.map fun kv =>
        (kv.1, { kv.2 with prop := some (100 * kv.2.size, Stats.langsTotal L) }) := by
      injection h with h'
      exact h'.symm
    subst hL'
    rw [propSum_map]
    have hcast : ((Stats.langsTotal L : ℤ) : ℚ) ≠ 0 := by exact_mod_cast ht
    rw [show ((L.map fun kv => kv.2.size).sum : ℤ) = Stats.langsTotal L from rfl]
    field_simp

/-- Claim C2: whenever `get_stats` completes and the aggregate byte size over
the recorded (non-excluded) languages is non-zero, the proportions of
the language mapping sum to exactly 100 (float arithmetic modelled by
exact rationals). -/
theorem c2_proportions_sum (cfg : Config) (pages : List Page)
    (s s' : StatsState) (c : Nat) (langs : List (String × LangStat))
    (hrun : Stats.getStats cfg pages s = some (s', c))
    (hl : s'.languages = some langs)
    (h0 : Stats.langsTotal langs ≠ 0) :
    propSum langs = 100 := by
  unfold Stats.getStats at hrun
  obtain ⟨L', hcp, heq⟩ := Option.map_eq_some'.mp hrun
  have hs' : s'.languages = some L' := by
    have := congrArg Prod.fst heq
    simp only at this
    rw [← this]
  rw [hs'] at hl
  have : L' = langs := by injection hl
  subst this
  exact computeProps_propSum _ L' hcp h0

/-- Witness for C2: the two-page run accumulates Py with 40 of 50 bytes
and C with 10 of 50 bytes, and the resulting proportions sum to 100. -/
theorem c2_proportions_sum_witness :
    propSum [("Py", { size := 40, occurrences := 2, color := none,
                      prop := some (4000, 50) }),
             ("C", { size := 10, occurrences := 1, color := none,
                     prop := some (1000, 50) })] = 100 :=
  c2_proportions_sum exCfg [exPage1, exPage2] {}
    { name := some "No Name"
      stargazers := some 5
      forks := some 1
      languages := some
        [("Py", { size := 40, occurrences := 2, color := none,
                  prop := some (4000, 50) }),
         ("C", { size := 10, occurrences := 1, color := none,
                 prop := some (1000, 50) })]
      repos := some ["A", "B"]
      ignoredRepos := some [] }
    2
    [("Py", { size := 40, occurrences := 2, color := none,
              prop := some (4000, 50) }),
     ("C", { size := 10, occurrences := 1, color := none,
             prop := some (1000, 50) })]
    (by decide) (by decide) (by decide)

/-- Claim C8 counterexample: against the empty page script, `get_stats`
completes with an empty language mapping whose aggregate byte size is
zero, yet no division by zero occurs — the proportion loop body is
never entered — so a zero total does not imply a division by zero. -/
theorem c8_zero_total_counterexample :
    (Stats.getStats exCfg [] {}).isSome ∧
      ((Stats.getStats exCfg [] {}).map fun r => r.1.languages) =
        some (some []) ∧
      Stats.langsTotal [] = 0 :=
  ⟨by decide, by decide, rfl⟩

/-- Claim C8 amended: the proportion division is indeed unguarded, but it is
reached only when the mapping is non-empty: a non-empty language
mapping with zero aggregate size makes the proportion step — and with
it `get_stats` — raise `ZeroDivisionError`, while an empty mapping
performs no division and `get_stats` completes. -/
theorem c8_zero_total_amended (cfg : Config) (pages : List Page)
    (s : StatsState) :
    (Stats.computeProps [] = some []) ∧
    (∀ (kv : String × LangStat) (L : List (String × LangStat)),
      Stats.langsTotal (kv :: L) = 0 → Stats.computeProps (kv :: L) = none) ∧
    ((Stats.runLoop cfg pages none none (Stats.initAccum s)).1.languages ≠ [] →
      Stats.langsTotal
          (Stats.runLoop cfg pages none none (Stats.initAccum s)).1.languages = 0 →
      Stats.getStats cfg pages s = none) ∧
    ((Stats.runLoop cfg pages none none (Stats.initAccum s)).1.languages = [] →
      (Stats.getStats cfg pages s).isSome) := by
  have hnil : Stats.computeProps [] = some [] := rfl
  have hzero : ∀ (kv : String × LangStat) (L : List (String × LangStat)),
      Stats.langsTotal (kv :: L) = 0 → Stats.computeProps (kv :: L) = none := by
    intro kv L h
    rw [Stats.computeProps, Stats.setProps, if_pos h]
  refine ⟨hnil, hzero, ?_, ?_⟩
  · intro hne h0
    unfold Stats.getStats
    cases hL : (Stats.runLoop cfg pages none none (Stats.initAccum s)).1.languages with
    | nil => exact absurd hL hne
    | cons kv L =>
      rw [hL] at h0
      simp only [hL, hzero kv L h0, Option.map_none']
  · intro hL
    unfold Stats.getStats
    simp only [hL, hnil, Option.map_some', Option.isSome_some]

/-- Witness for C8 amended: a page whose single repository reports one
language of byte size 0 drives `get_stats` into the division by zero,
while the empty page script completes. -/
theorem c8_zero_total_amended_witness :
    Stats.getStats exCfg [exPageC8] {} = none ∧
      (Stats.getStats exCfg [] ({} : StatsState)).isSome :=
  ⟨(c8_zero_total_amended exCfg [exPageC8] {}).2.2.1 (by decide) (by decide),
    (c8_zero_total_amended exCfg [] {}).2.2.2 (by decide)⟩

/-- Memoization of the `name` accessor: a successful call leaves the
field set, so an immediate second call returns the cached value with no
request. -/
theorem nameAcc_memo (cfg : Config) (env : Env) (s : StatsState)
    (v : String) (s' : StatsState) (c : Nat)
    (h : Stats.nameAcc cfg env s = some (v, s', c)) :
    Stats.nameAcc cfg env s' = some (v, s', 0) := by
  unfold Stats.nameAcc at h ⊢
  cases hs : s.name with
  | some w =>
    rw [hs] at h
    simp only [Option.some.injEq, Prod.mk.injEq] at h
    obtain ⟨rfl, rfl, -⟩ := h
    rw [hs]
  | none =>
    rw [hs] at h
    cases hg : Stats.getStats cfg env.pages s with
    | none => rw [hg] at h; simp at h
    | some r =>
      rw [hg] at h
      simp only [Option.some_bind] at h
      cases hn : r.1.name with
      | none => rw [hn] at h; simp at h
      | some w =>
        rw [hn] at h
        simp only [Option.map_some', Option.some.injEq, Prod.mk.injEq] at h
        obtain ⟨rfl, rfl, -⟩ := h
        rw [hn]

/-- Memoization of the `stargazers` accessor. -/
theorem stargazersAcc_memo (cfg : Config) (env : Env) (s : StatsState)
    (v : Int) (s' : StatsState) (c : Nat)
    (h : Stats.stargazersAcc cfg env s = some (v, s', c)) :
    Stats.stargazersAcc cfg env s' = some (v, s', 0) := by
  unfold Stats.stargazersAcc at h ⊢
  cases hs : s.stargazers with
  | some w =>
    rw [hs] at h
    simp only [Option.some.injEq, Prod.mk.injEq] at h
    obtain ⟨rfl, rfl, -⟩ := h
    rw [hs]
  | none =>
    rw [hs] at h
    cases hg : Stats.getStats cfg env.pages s with
    | none => rw [hg] at h; simp at h
    | some r =>
      rw [hg] at h
      simp only [Option.some_bind] at h
      cases hn : r.1.stargazers with
      | none => rw [hn] at h; simp at h
      | some w =>
        rw [hn] at h
        simp only [Option.map_some', Option.some.injEq, Prod.mk.injEq] at h
        obtain ⟨rfl, rfl, -⟩ := h
        rw [hn]

/-- Memoization of the `forks` accessor. -/
theorem forksAcc_memo (cfg : Config) (env : Env) (s : StatsState)
    (v : Int) (s' : StatsState) (c : Nat)
    (h : Stats.forksAcc cfg env s = some (v, s', c)) :
    Stats.forksAcc cfg env s' = some (v, s', 0) := by
  unfold Stats.forksAcc at h ⊢
  cases hs : s.forks with
  | some w =>
    rw [hs] at h
    simp only [Option.some.injEq, Prod.mk.injEq] at h
    obtain ⟨rfl, rfl, -⟩ := h
    rw [hs]
  | none =>
    rw [hs] at h
    cases hg : Stats.getStats cfg env.pages s with
    | none => rw [hg] at h; simp at h
    | some r =>
      rw [hg] at h
      simp only [Option.some_bind] at h
      cases hn : r.1.forks with
      | none => rw [hn] at h; simp at h
      | some w =>
        rw [hn] at h
        simp only [Option.map_some', Option.some.injEq, Prod.mk.injEq] at h
        obtain ⟨rfl, rfl, -⟩ := h
        rw [hn]

/-- Memoization of the `languages` accessor. -/
theorem languagesAcc_memo (cfg : Config) (env : Env) (s : StatsState)
    (v : List (String × LangStat)) (s' : StatsState) (c : Nat)
    (h : Stats.languagesAcc cfg env s = some (v, s', c)) :
    Stats.languagesAcc cfg env s' = some (v, s', 0) := by
  unfold Stats.languagesAcc at h ⊢
  cases hs : s.languages with
  | some w =>
    rw [hs] at h
    simp only [Option.some.injEq, Prod.mk.injEq] at h
    obtain ⟨rfl, rfl, -⟩ := h
    rw [hs]
  | none =>
    rw [hs] at h
    cases hg : Stats.getStats cfg env.pages s with
    | none => rw [hg] at h; simp at h
    | some r =>
      rw [hg] at h
      simp only [Option.some_bind] at h
      cases hn : r.1.languages with
      | none => rw [hn] at h; simp at h
      | some w =>
        rw [hn] at h
        simp only [Option.map_some', Option.some.injEq, Prod.mk.injEq] at h
        obtain ⟨rfl, rfl, -⟩ := h
        rw [hn]

/-- Memoization of the `repos` accessor. -/
theorem reposAcc_memo (cfg : Config) (env : Env) (s : StatsState)
    (v : List String) (s' : StatsState) (c : Nat)
    (h : Stats.reposAcc cfg env s = some (v, s', c)) :
    Stats.reposAcc cfg env s' = some (v, s', 0) := by
  unfold Stats.reposAcc at h ⊢
  cases hs : s.repos with
  | some w =>
    rw [hs] at h
    simp only [Option.some.injEq, Prod.mk.injEq] at h
    obtain ⟨rfl, rfl, -⟩ := h
    rw [hs]
  | none =>
    rw [hs] at h
    cases hg : Stats.getStats cfg env.pages s with
    | none => rw [hg] at h; simp at h
    | some r =>
      rw [hg] at h
      simp only [Option.some_bind] at h
      cases hn : r.1.repos with
      | none => rw [hn] at h; simp at h
      | some w =>
        rw [hn] at h
        simp only [Option.map_some', Option.some.injEq, Prod.mk.injEq] at h
        obtain ⟨rfl, rfl, -⟩ := h
        rw [hn]

/-- Memoization of the `all_repos` accessor. -/
theorem allReposAcc_memo (cfg : Config) (env : Env) (s : StatsState)
    (v : List String) (s' : StatsState) (c : Nat)
    (h : Stats.allReposAcc cfg env s = some (v, s', c)) :
    Stats.allReposAcc cfg env s' = some (v, s', 0) := by
  have key : ∃ a b, s'.repos = some a ∧ s'.ignoredRepos = some b ∧
      v = setUnion a b := by
    unfold Stats.allReposAcc at h
    rcases hr : s.repos with - | r <;> rcases hi : s.ignoredRepos with - | i <;>
      rw [hr, hi] at h
    case some.some =>
      simp only [Option.some.injEq, Prod.mk.injEq] at h
      obtain ⟨hv, hq, -⟩ := h
      subst hq
      exact ⟨r, i, hr, hi, hv.symm⟩
    all_goals
      cases hg : Stats.getStats cfg env.pages s with
      | none => rw [hg] at h; simp at h
      | some q =>
        rw [hg] at h
        simp only [Option.some_bind] at h
        rcases ha : q.1.repos with - | a <;>
          rcases hb : q.1.ignoredRepos with - | b <;> rw [ha, hb] at h
        · simp at h
        · simp at h
        · simp at h
        · simp only [Option.some.injEq, Prod.mk.injEq] at h
          obtain ⟨hv, hq1, hq2⟩ := h
          exact ⟨a, b, hq1 ▸ ha, hq1 ▸ hb, hv.symm⟩
  obtain ⟨a, b, ha, hb, rfl⟩ := key
  unfold Stats.allReposAcc
  rw [ha, hb]

/-- Memoization of the `total_contributions` accessor. -/
theorem totalContributionsAcc_memo (env : Env) (s : StatsState)
    (v : Int) (s' : StatsState) (c : Nat)
    (h : Stats.totalContributionsAcc env s = some (v, s', c)) :
    Stats.totalContributionsAcc env s' = some (v, s', 0) := by
  unfold Stats.totalContributionsAcc at h ⊢
  cases hs : s.totalContributions with
  | some w =>
    rw [hs] at h
    simp only [Option.some.injEq, Prod.mk.injEq] at h
    obtain ⟨rfl, rfl, -⟩ := h
    rw [hs]
  | none =>
    rw [hs] at h
    simp only [Option.some.injEq, Prod.mk.injEq] at h
    obtain ⟨rfl, rfl, -⟩ := h
    rfl

/-- Memoization of the `lines_changed` accessor. -/
theorem linesChangedAcc_memo (cfg : Config) (env : Env) (s : StatsState)
    (v : Int × Int) (s' : StatsState) (c : Nat)
    (h : Stats.linesChangedAcc cfg env s = some (v, s', c)) :
    Stats.linesChangedAcc cfg env s' = some (v, s', 0) := by
  unfold Stats.linesChangedAcc at h ⊢
  cases hs : s.linesChanged with
  | some w =>
    rw [hs] at h
    simp only [Option.some.injEq, Prod.mk.injEq] at h
    obtain ⟨rfl, rfl, -⟩ := h
    rw [hs]
  | none =>
    rw [hs] at h
    cases hg : Stats.allReposAcc cfg env s with
    | none => rw [hg] at h; simp at h
    | some q =>
      rw [hg] at h
      simp only [Option.some_bind, Option.some.injEq, Prod.mk.injEq] at h
      obtain ⟨rfl, rfl, -⟩ := h
      rfl

/-- Memoization of the `views` accessor. -/
theorem viewsAcc_memo (cfg : Config) (env : Env) (s : StatsState)
    (v : Int) (s' : StatsState) (c : Nat)
    (h : Stats.viewsAcc cfg env s = some (v, s', c)) :
    Stats.viewsAcc cfg env s' = some (v, s', 0) := by
  unfold Stats.viewsAcc at h ⊢
  cases hs : s.views with
  | some w =>
    rw [hs] at h
    simp only [Option.some.injEq, Prod.mk.injEq] at h
    obtain ⟨rfl, rfl, -⟩ := h
    rw [hs]
  | none =>
    rw [hs] at h
    cases hg : Stats.reposAcc cfg env s with
    | none => rw [hg] at h; simp at h
    | some q =>
      rw [hg] at h
      simp only [Option.some_bind, Option.some.injEq, Prod.mk.injEq] at h
      obtain ⟨rfl, rfl, -⟩ := h
      rfl

/-- Claim C1: within one run each statistic is memoized — whenever any of the
nine accessors (`name`, `stargazers`, `forks`, `languages`, `repos`,
`all_repos`, `total_contributions`, `lines_changed`, `views`) returns a
value, an immediate second call to the same accessor returns the
identical cached value, leaves the state unchanged, and issues zero
further requests to the API client. -/
theorem c1_accessor_memoization (cfg : Config) (env : Env) (s : StatsState) :
    (∀ v s' c, Stats.nameAcc cfg env s = some (v, s', c) →
      Stats.nameAcc cfg env s' = some (v, s', 0)) ∧
    (∀ v s' c, Stats.stargazersAcc cfg env s = some (v, s', c) →
      Stats.stargazersAcc cfg env s' = some (v, s', 0)) ∧
    (∀ v s' c, Stats.forksAcc cfg env s = some (v, s', c) →
      Stats.forksAcc cfg env s' = some (v, s', 0)) ∧
    (∀ v s' c, Stats.languagesAcc cfg env s = some (v, s', c) →
      Stats.languagesAcc cfg env s' = some (v, s', 0)) ∧
    (∀ v s' c, Stats.reposAcc cfg env s = some (v, s', c) →
      Stats.reposAcc cfg env s' = some (v, s', 0)) ∧
    (∀ v s' c, Stats.allReposAcc cfg env s = some (v, s', c) →
      Stats.allReposAcc cfg env s' = some (v, s', 0)) ∧
    (∀ v s' c, Stats.totalContributionsAcc env s = some (v, s', c) →
      Stats.totalContributionsAcc env s' = some (v, s', 0)) ∧
    (∀ v s' c, Stats.linesChangedAcc cfg env s = some (v, s', c) →
      Stats.linesChangedAcc cfg env s' = some (v, s', 0)) ∧
    (∀ v s' c, Stats.viewsAcc cfg env s = some (v, s', c) →
      Stats.viewsAcc cfg env s' = some (v, s', 0)) :=
  ⟨fun v s' c => nameAcc_memo cfg env s v s' c,
   fun v s' c => stargazersAcc_memo cfg env s v s' c,
   fun v s' c => forksAcc_memo cfg env s v s' c,
   fun v s' c => languagesAcc_memo cfg env s v s' c,
   fun v s' c => reposAcc_memo cfg env s v s' c,
   fun v s' c => allReposAcc_memo cfg env s v s' c,
   fun v s' c => totalContributionsAcc_memo env s v s' c,
   fun v s' c => linesChangedAcc_memo cfg env s v s' c,
   fun v s' c => viewsAcc_memo cfg env s v s' c⟩

/-- Witness for C1: against the empty page script, each of the nine
accessors computes once (issuing requests) and then replays its cached
value with zero requests. -/
theorem c1_accessor_memoization_witness :
    (Stats.nameAcc exCfg exEnv {} = some ("No Name", exStateEmptyRun, 1) ∧
      Stats.nameAcc exCfg exEnv exStateEmptyRun =
        some ("No Name", exStateEmptyRun, 0)) ∧
    (Stats.stargazersAcc exCfg exEnv {} = some (0, exStateEmptyRun, 1) ∧
      Stats.stargazersAcc exCfg exEnv exStateEmptyRun =
        some (0, exStateEmptyRun, 0)) ∧
    (Stats.forksAcc exCfg exEnv {} = some (0, exStateEmptyRun, 1) ∧
      Stats.forksAcc exCfg exEnv exStateEmptyRun =
        some (0, exStateEmptyRun, 0)) ∧
    (Stats.languagesAcc exCfg exEnv {} = some ([], exStateEmptyRun, 1) ∧
      Stats.languagesAcc exCfg exEnv exStateEmptyRun =
        some ([], exStateEmptyRun, 0)) ∧
    (Stats.reposAcc exCfg exEnv {} = some ([], exStateEmptyRun, 1) ∧
      Stats.reposAcc exCfg exEnv exStateEmptyRun =
        some ([], exStateEmptyRun, 0)) ∧
    (Stats.allReposAcc exCfg exEnv {} = some ([], exStateEmptyRun, 1) ∧
      Stats.allReposAcc exCfg exEnv exStateEmptyRun =
        some ([], exStateEmptyRun, 0)) ∧
    (Stats.totalContributionsAcc exEnv {} =
        some (0, { totalContributions := some 0 }, 2) ∧
      Stats.totalContributionsAcc exEnv { totalContributions := some 0 } =
        some (0, { totalContributions := some 0 }, 0)) ∧
    (Stats.linesChangedAcc exCfg exEnv {} =
        some ((0, 0), { exStateEmptyRun with linesChanged := some (0, 0) }, 1) ∧
      Stats.linesChangedAcc exCfg exEnv
          { exStateEmptyRun with linesChanged := some (0, 0) } =
        some ((0, 0), { exStateEmptyRun with linesChanged := some (0, 0) }, 0)) ∧
    (Stats.viewsAcc exCfg exEnv {} =
        some (0, { exStateEmptyRun with views := some 0 }, 1) ∧
      Stats.viewsAcc exCfg exEnv { exStateEmptyRun with views := some 0 } =
        some (0, { exStateEmptyRun with views := some 0 }, 0)) :=
  ⟨⟨by decide, (c1_accessor_memoization exCfg exEnv {}).1
      "No Name" exStateEmptyRun 1 (by decide)⟩,
   ⟨by decide, (c1_accessor_memoization exCfg exEnv {}).2.1
      0 exStateEmptyRun 1 (by decide)⟩,
   ⟨by decide, (c1_accessor_memoization exCfg exEnv {}).2.2.1
      0 exStateEmptyRun 1 (by decide)⟩,
   ⟨by decide, (c1_accessor_memoization exCfg exEnv {}).2.2.2.1
      [] exStateEmptyRun 1 (by decide)⟩,
   ⟨by decide, (c1_accessor_memoization exCfg exEnv {}).2.2.2.2.1
      [] exStateEmptyRun 1 (by decide)⟩,
   ⟨by decide, (c1_accessor_memoization exCfg exEnv {}).2.2.2.2.2.1
      [] exStateEmptyRun 1 (by decide)⟩,
   ⟨by decide, (c1_accessor_memoization exCfg exEnv {}).2.2.2.2.2.2.1
      0 { totalContributions := some 0 } 2 (by decide)⟩,
   ⟨by decide, (c1_accessor_memoization exCfg exEnv {}).2.2.2.2.2.2.2.1
      (0, 0) { exStateEmptyRun with linesChanged := some (0, 0) } 1 (by decide)⟩,
   ⟨by decide, (c1_accessor_memoization exCfg exEnv {}).2.2.2.2.2.2.2.2
      0 { exStateEmptyRun with views := some 0 } 1 (by decide)⟩⟩

/-- Claim C10: any completed `get_stats` leaves `_stargazers`, `_forks`,
`_languages`, `_repos` and `_ignored_repos` set (they are assigned
unconditionally before the pagination loop), so the post-`get_stats`
assertions of the `stargazers`, `forks`, `languages`, `repos` and
`all_repos` accessors cannot fire and each of those accessors returns
its cached value without starting a second `get_stats` (zero further
requests). -/
theorem c10_fields_set_after_get_stats (cfg : Config) (env : Env)
    (s s' : StatsState) (c : Nat)
    (h : Stats.getStats cfg env.pages s = some (s', c)) :
    (∃ v, s'.stargazers = some v ∧
      Stats.stargazersAcc cfg env s' = some (v, s', 0)) ∧
    (∃ v, s'.forks = some v ∧
      Stats.forksAcc cfg env s' = some (v, s', 0)) ∧
    (∃ v, s'.languages = some v ∧
      Stats.languagesAcc cfg env s' = some (v, s', 0)) ∧
    (∃ v, s'.repos = some v ∧
      Stats.reposAcc cfg env s' = some (v, s', 0)) ∧
    (∃ a b, s'.repos = some a ∧ s'.ignoredRepos = some b ∧
      Stats.allReposAcc cfg env s' = some (setUnion a b, s', 0)) := by
  unfold Stats.getStats at h
  obtain ⟨L, hcp, heq⟩ := Option.map_eq_some'.mp h
  injection heq with h1 h2
  subst h1
  exact ⟨⟨_, rfl, rfl⟩, ⟨_, rfl, rfl⟩, ⟨_, rfl, rfl⟩, ⟨_, rfl, rfl⟩,
    ⟨_, _, rfl, rfl, rfl⟩⟩

/-- Witness for C10: the run against the empty page script sets all
five fields, and every post-run accessor is served from the cache. -/
theorem c10_fields_set_after_get_stats_witness :
    (∃ v, exStateEmptyRun.stargazers = some v ∧
      Stats.stargazersAcc exCfg exEnv exStateEmptyRun =
        some (v, exStateEmptyRun, 0)) ∧
    (∃ v, exStateEmptyRun.forks = some v ∧
      Stats.forksAcc exCfg exEnv exStateEmptyRun =
        some (v, exStateEmptyRun, 0)) ∧
    (∃ v, exStateEmptyRun.languages = some v ∧
      Stats.languagesAcc exCfg exEnv exStateEmptyRun =
        some (v, exStateEmptyRun, 0)) ∧
    (∃ v, exStateEmptyRun.repos = some v ∧
      Stats.reposAcc exCfg exEnv exStateEmptyRun =
        some (v, exStateEmptyRun, 0)) ∧
    (∃ a b, exStateEmptyRun.repos = some a ∧
      exStateEmptyRun.ignoredRepos = some b ∧
      Stats.allReposAcc exCfg exEnv exStateEmptyRun =
        some (setUnion a b, exStateEmptyRun, 0)) :=
  c10_fields_set_after_get_stats exCfg exEnv {} exStateEmptyRun 1 (by decide)

/-- Claim C3 counterexample: on a page whose owned collection reports
`hasNextPage: false` (with end cursor `"X"` present) while the
contributed collection reports a next page, the loop's second query
carries owned cursor `some "X"` — the owned cursor was advanced even
though its own collection reported no next page, instead of staying
`none`. -/
theorem c3_cursor_advance_counterexample :
    exPageC3.repositories.pageInfo.hasNextPage = false ∧
      (Stats.runLoop exCfg [exPageC3] none none (Stats.initAccum {})).2 =
        [(none, none), (some "X", some "Y")] ∧
      some "X" ≠ (none : Option String) :=
  ⟨rfl, by decide, by decide⟩

/-- Claim C3 amended: the loop issues another overview query exactly when
either collection reports a next page, and it then advances BOTH
cursors: each cursor is set to its own collection's `endCursor` value
whenever that key is present (its old value is kept only when the key
is absent), regardless of which collection reported the next page.  In
particular, a two-page input whose first page reports a next page and
whose second does not issues exactly two overview queries, the second
using page 1's end cursors, and both pages' repositories are merged
into the accumulator (whose language mapping the proportion step then
settles). -/
theorem c3_pagination_amended (cfg : Config) :
    (∀ (p : Page) (rest : List Page) (oc cc : Option String) (st : Accum),
      Stats.hasNext p = true →
      Stats.runLoop cfg (p :: rest) oc cc st =
        ((Stats.runLoop cfg rest
            (Stats.advanceCursor oc p.repositories.pageInfo)
            (Stats.advanceCursor cc p.repositoriesContributedTo.pageInfo)
            (Stats.processPage cfg st p)).1,
         (oc, cc) ::
          (Stats.runLoop cfg rest
            (Stats.advanceCursor oc p.repositories.pageInfo)
            (Stats.advanceCursor cc p.repositoriesContributedTo.pageInfo)
            (Stats.processPage cfg st p)).2)) ∧
    (∀ (p : Page) (rest : List Page) (oc cc : Option String) (st : Accum),
      Stats.hasNext p = false →
      Stats.runLoop cfg (p :: rest) oc cc st =
        (Stats.processPage cfg st p, [(oc, cc)])) ∧
    (∀ (p1 p2 : Page) (st : Accum),
      Stats.hasNext p1 = true → Stats.hasNext p2 = false →
      Stats.runLoop cfg [p1, p2] none none st =
        (Stats.processPage cfg (Stats.processPage cfg st p1) p2,
         [(none, none),
          (Stats.advanceCursor none p1.repositories.pageInfo,
           Stats.advanceCursor none p1.repositoriesContributedTo.pageInfo)])) := by
  refine ⟨?_, ?_, ?_⟩
  · intro p rest oc cc st h
    rw [Stats.runLoop, if_pos h]
  · intro p rest oc cc st h
    rw [Stats.runLoop, if_neg (by simp [h])]
  · intro p1 p2 st h1 h2
    rw [Stats.runLoop, if_pos h1, Stats.runLoop, if_neg (by simp [h2])]

/-- Witness for C3 amended: the two-page script issues the queries
`(null, null)` and `(some "abc", null)` and merges both pages. -/
theorem c3_pagination_amended_witness :
    Stats.runLoop exCfg [exPage1, exPage2] none none (Stats.initAccum {}) =
      (Stats.processPage exCfg
        (Stats.processPage exCfg (Stats.initAccum {}) exPage1) exPage2,
       [(none, none),
        (Stats.advanceCursor none exPage1.repositories.pageInfo,
         Stats.advanceCursor none exPage1.repositoriesContributedTo.pageInfo)]) :=
  (c3_pagination_amended exCfg).2.2 exPage1 exPage2 (Stats.initAccum {})
    (by decide) (by decide)

/-- Folding a componentwise accumulation is summing componentwise. -/
theorem foldl_pair_sum {α : Type} (f g : α → Int) :
    ∀ (l : List α) (x y : Int),
      l.foldl (fun t e => (t.1 + f e, t.2 + g e)) (x, y) =
        (x + (l.map f).sum, y + (l.map g).sum) := by
  intro l
  induction l with
  | nil => intro x y; simp
  | cons e t ih =>
    intro x y
    simp only [List.foldl_cons, List.map_cons, List.sum_cons, ih,
      Prod.mk.injEq]
    omega

/-- Entries on which a function vanishes may be filtered out of a
mapped sum. -/
theorem sum_map_filter_of_zero {α : Type} (p : α → Bool) (f : α → Int) :
    ∀ l : List α, (∀ e ∈ l, p e = false → f e = 0) →
      ((l.filter p).map f).sum = (l.map f).sum := by
  intro l
  induction l with
  | nil => intro _; rfl
  | cons e t ih =>
    intro h
    have hrest : ∀ x ∈ t, p x = false → f x = 0 := fun x hx hpx =>
      h x (List.mem_cons_of_mem _ hx) hpx
    by_cases hp : p e
    · simp [List.filter_cons, hp, ih hrest]
    · have hz : f e = 0 := h e (List.mem_cons_self _ _) (by simpa using hp)
      simp [List.filter_cons, hp, hz, ih hrest]

/-- The per-repository accumulation of `lines_changed`, as a mapped
sum. -/
theorem repoLines_eq_sum (u : String) (l : List CEntry) :
    Stats.repoLines u l =
      ((l.map fun e => (Stats.entryContrib u e).1).sum,
       (l.map fun e => (Stats.entryContrib u e).2).sum) := by
  unfold Stats.repoLines
  rw [foldl_pair_sum]
  simp

/-- Malformed contributor entries contribute nothing. -/
theorem entryContrib_malformed (u : String) (e : CEntry)
    (h : entryWellFormed e = false) : Stats.entryContrib u e = (0, 0) := by
  cases e with
  | notDict => rfl
  | entry a w =>
    cases a with
    | notDict => rfl
    | dict l => simp [entryWellFormed] at h

/-- Contributor entries of another author contribute nothing. -/
theorem entryContrib_of_not_matches (u : String) (e : CEntry)
    (h : entryMatches u e = false) : Stats.entryContrib u e = (0, 0) := by
  cases e with
  | notDict => rfl
  | entry a w =>
    cases a with
    | notDict => rfl
    | dict l =>
      simp only [entryMatches, entryLoginD, beq_iff_eq, Option.some.injEq] at h
      simp only [Stats.entryContrib, if_neg (by simpa using h)]

/-- A matching, well-formed contributor entry contributes the sums of
its weekly additions and deletions. -/
theorem entryContrib_of_matches (u : String) (e : CEntry)
    (h : entryMatches u e = true) :
    Stats.entryContrib u e =
      (((entryWeeks e).map Week.a).sum, ((entryWeeks e).map Week.d).sum) := by
  cases e with
  | notDict => simp [entryMatches, entryLoginD] at h
  | entry a w =>
    cases a with
    | notDict => simp [entryMatches, entryLoginD] at h
    | dict l =>
      simp only [entryMatches, entryLoginD, beq_iff_eq, Option.some.injEq] at h
      simp only [Stats.entryContrib, if_pos h, entryWeeks]

/-- Claim C9: `lines_changed` iterates over the union of the included and
ignored repository sets; in each repository's contributor-stats
response every entry that is not a mapping or whose author field is not
a mapping is skipped without raising and without affecting the totals
of the well-formed entries of the same response, and every well-formed
entry whose author login equals the target username contributes the
sums of its per-week additions and deletions to the returned pair. -/
theorem c9_lines_changed (cfg : Config) (env : Env) :
    (∀ (u : String) (entries : List CEntry),
      Stats.repoLines u entries =
        Stats.repoLines u (entries.filter entryWellFormed)) ∧
    (∀ (u : String) (entries : List CEntry),
      Stats.repoLines u entries =
        (((entries.filter (entryMatches u)).map
            fun e => ((entryWeeks e).map Week.a).sum).sum,
         ((entries.filter (entryMatches u)).map
            fun e => ((entryWeeks e).map Week.d).sum).sum)) ∧
    (∀ (s : StatsState) (r i : List String),
      s.linesChanged = none → s.repos = some r → s.ignoredRepos = some i →
      Stats.linesChangedAcc cfg env s =
        some (Stats.linesTotal cfg.username (setUnion r i) env.contribStats,
          { s with linesChanged := some (Stats.linesTotal cfg.username (setUnion r i) env.contribStats) },
          (setUnion r i).length)) := by
  refine ⟨?_, ?_, ?_⟩
  · intro u entries
    rw [repoLines_eq_sum, repoLines_eq_sum]
    have h1 := sum_map_filter_of_zero entryWellFormed
      (fun e => (Stats.entryContrib u e).1) entries
      (fun e _ hw => by simp [entryContrib_malformed u e hw])
    have h2 := sum_map_filter_of_zero entryWellFormed
      (fun e => (Stats.entryContrib u e).2) entries
      (fun e _ hw => by simp [entryContrib_malformed u e hw])
    rw [h1, h2]
  · intro u entries
    rw [repoLines_eq_sum]
    have h1 := sum_map_filter_of_zero (entryMatches u)
      (fun e => (Stats.entryContrib u e).1) entries
      (fun e _ hw => by simp [entryContrib_of_not_matches u e hw])
    have h2 := sum_map_filter_of_zero (entryMatches u)
      (fun e => (Stats.entryContrib u e).2) entries
      (fun e _ hw => by simp [entryContrib_of_not_matches u e hw])
    rw [← h1, ← h2]
    have hm1 : ((entries.filter (entryMatches u)).map
        fun e => (Stats.entryContrib u e).1) =
        ((entries.filter (entryMatches u)).map
          fun e => ((entryWeeks e).map Week.a).sum) := by
      apply List.map_congr_left
      intro e he
      rw [entryContrib_of_matches u e (List.of_mem_filter he)]
    have hm2 : ((entries.filter (entryMatches u)).map
        fun e => (Stats.entryContrib u e).2) =
        ((entries.filter (entryMatches u)).map
          fun e => ((entryWeeks e).map Week.d).sum) := by
      apply List.map_congr_left
      intro e he
      rw [entryContrib_of_matches u e (List.of_mem_filter he)]
    rw [hm1, hm2]
  · intro s r i hlc hr hi
    unfold Stats.linesChangedAcc Stats.allReposAcc
    rw [hlc, hr, hi]
    simp
    exact ⟨hr, hi⟩

/-- Witness for C9: a response mixing a non-mapping entry, an entry
with a non-mapping author, another author's entry and two matching
entries sums exactly the matching entries' weeks, and the accessor
walks the union of the included and ignored sets. -/
theorem c9_lines_changed_witness :
    Stats.repoLines "u"
        [.notDict,
         .entry .notDict [{ a := 7, d := 7 }],
         .entry (.dict (some "other")) [{ a := 5, d := 6 }],
         .entry (.dict (some "u")) [{ a := 1, d := 2 }, { a := 3, d := 4 }],
         .entry (.dict (some "u")) [{ a := 10, d := 20 }]] =
      Stats.repoLines "u"
        ([.notDict,
          .entry .notDict [{ a := 7, d := 7 }],
          .entry (.dict (some "other")) [{ a := 5, d := 6 }],
          .entry (.dict (some "u")) [{ a := 1, d := 2 }, { a := 3, d := 4 }],
          .entry (.dict (some "u")) [{ a := 10, d := 20 }]].filter
            entryWellFormed) ∧
    Stats.linesChangedAcc exCfg exEnv
        { exStateEmptyRun with repos := some ["A"], ignoredRepos := some ["B"] } =
      some (Stats.linesTotal "u" (setUnion ["A"] ["B"]) exEnv.contribStats,
        { exStateEmptyRun with
            repos := some ["A"]
            ignoredRepos := some ["B"]
            linesChanged := some (Stats.linesTotal "u" (setUnion ["A"] ["B"]) exEnv.contribStats) },
        (setUnion ["A"] ["B"]).length) :=
  ⟨(c9_lines_changed exCfg exEnv).1 "u" _,
   (c9_lines_changed exCfg exEnv).2.2
      { exStateEmptyRun with repos := some ["A"], ignoredRepos := some ["B"] }
      ["A"] ["B"] rfl rfl rfl⟩

/-- An excluded repository node is skipped by the accumulation loop. -/
theorem processRepo_of_excluded (cfg : Config) (st : Accum) (r : RepoNode)
    (h : r.nameWithOwner ∈ cfg.excludeRepos) :
    Stats.processRepo cfg st r = st := by
  unfold Stats.processRepo
  rw [if_pos (Or.inr h)]

/-- A repository node already recorded is skipped by the accumulation
loop. -/
theorem processRepo_of_mem (cfg : Config) (st : Accum) (r : RepoNode)
    (h : r.nameWithOwner ∈ st.repos) :
    Stats.processRepo cfg st r = st := by
  unfold Stats.processRepo
  rw [if_pos (Or.inl h)]

/-- An excluded repository node is skipped by the ignored-set loop. -/
theorem addIgnored_of_excluded (cfg : Config) (ign : List String)
    (r : RepoNode) (h : r.nameWithOwner ∈ cfg.excludeRepos) :
    Stats.addIgnored cfg ign r = ign := by
  unfold Stats.addIgnored
  rw [if_pos (Or.inr h)]

/-- Elements on which a fold's step function is the identity may be
filtered out of the fold. -/
theorem foldl_filter_of_skip {α β : Type} (f : β → α → β) (p : α → Bool) :
    ∀ (l : List α) (b : β),
      (∀ (b' : β) (x : α), x ∈ l → p x = false → f b' x = b') →
      (l.filter p).foldl f b = l.foldl f b := by
  intro l
  induction l with
  | nil => intro b _; rfl
  | cons x t ih =>
    intro b h
    have hrest : ∀ (b' : β) (y : α), y ∈ t → p y = false → f b' y = b' :=
      fun b' y hy => h b' y (List.mem_cons_of_mem _ hy)
    by_cases hp : p x
    · simp only [List.filter_cons, hp, if_pos, List.foldl_cons]
      exact ih (f b x) hrest
    · have hid := h b x (List.mem_cons_self _ _) (by simpa using hp)
      simp only [List.filter_cons, hp, Bool.false_eq_true, if_neg,
        List.foldl_cons, hid]
      exact ih b hrest

/-- Filtering a page commutes with assembling the accumulation loop's
repository list. -/
theorem pageRepos_filterPage (cfg : Config) (n : String) (p : Page) :
    Stats.pageRepos cfg (filterPage n p) =
      (Stats.pageRepos cfg p).filter fun r => r.nameWithOwner != n := by
  unfold Stats.pageRepos filterPage filterColl
  by_cases h : cfg.considerForkedRepos <;> simp [h, List.filter_append]

/-- Removal of the nodes of an excluded name from a page does not
change how the page is processed. -/
theorem processPage_filterPage (cfg : Config) (n : String)
    (hn : n ∈ cfg.excludeRepos) (st : Accum) (p : Page) :
    Stats.processPage cfg st (filterPage n p) = Stats.processPage cfg st p := by
  have hA : ∀ ign : List String,
      ((p.repositoriesContributedTo.nodes.filter
        fun r => r.nameWithOwner != n).foldl (Stats.addIgnored cfg) ign) =
        p.repositoriesContributedTo.nodes.foldl (Stats.addIgnored cfg) ign := by
    intro ign
    apply foldl_filter_of_skip
    intro b' x _ hpx
    apply addIgnored_of_excluded
    have : x.nameWithOwner = n := by simpa using hpx
    rw [this]; exact hn
  have hB : ∀ st0 : Accum,
      (((Stats.pageRepos cfg p).filter
        fun r => r.nameWithOwner != n).foldl (Stats.processRepo cfg) st0) =
        (Stats.pageRepos cfg p).foldl (Stats.processRepo cfg) st0 := by
    intro st0
    apply foldl_filter_of_skip
    intro b' x _ hpx
    apply processRepo_of_excluded
    have : x.nameWithOwner = n := by simpa using hpx
    rw [this]; exact hn
  unfold Stats.processPage
  rw [pageRepos_filterPage, hB]
  rw [show (filterPage n p).repositoriesContributedTo.nodes =
    p.repositoriesContributedTo.nodes.filter
      (fun r => r.nameWithOwner != n) from rfl]
  rw [hA]
  rfl

/-- Removal of the nodes of an excluded name from every page does not
change the pagination loop's result. -/
theorem runLoop_filterPage (cfg : Config) (n : String)
    (hn : n ∈ cfg.excludeRepos) :
    ∀ (pages : List Page) (oc cc : Option String) (st : Accum),
      Stats.runLoop cfg (pages.map (filterPage n)) oc cc st =
        Stats.runLoop cfg pages oc cc st := by
  intro pages
  induction pages with
  | nil => intro oc cc st; rfl
  | cons p rest ih =>
    intro oc cc st
    rw [List.map_cons, Stats.runLoop, Stats.runLoop]
    rw [processPage_filterPage cfg n hn st p]
    rw [show Stats.hasNext (filterPage n p) = Stats.hasNext p from rfl]
    rw [show (filterPage n p).repositories.pageInfo =
      p.repositories.pageInfo from rfl]
    rw [show (filterPage n p).repositoriesContributedTo.pageInfo =
      p.repositoriesContributedTo.pageInfo from rfl]
    rw [ih]

/-- A property preserved by every fold step holds of the fold. -/
theorem foldl_preserve {α β : Type} (f : β → α → β) (P : β → Prop)
    (hf : ∀ b x, P b → P (f b x)) :
    ∀ (l : List α) (b : β), P b → P (l.foldl f b) := by
  intro l
  induction l with
  | nil => intro b h; exact h
  | cons x t ih => intro b h; exact ih (f b x) (hf b x h)

/-- The accumulation loop never touches the ignored set. -/
theorem processRepo_ignoredRepos (cfg : Config) (st : Accum) (r : RepoNode) :
    (Stats.processRepo cfg st r).ignoredRepos = st.ignoredRepos := by
  unfold Stats.processRepo
  split <;> rfl

/-- Names reachable by one accumulation step. -/
theorem processRepo_repos_sub (cfg : Config) (st : Accum) (r : RepoNode)
    (x : String) (h : x ∈ (Stats.processRepo cfg st r).repos) :
    x ∈ st.repos ∨ x = r.nameWithOwner := by
  unfold Stats.processRepo at h
  split at h
  · exact Or.inl h
  · rcases List.mem_append.mp h with h1 | h2
    · exact Or.inl h1
    · exact Or.inr (by simpa using h2)

/-- Names reachable by one ignored-set step. -/
theorem addIgnored_sub (cfg : Config) (ign : List String) (r : RepoNode)
    (x : String) (h : x ∈ Stats.addIgnored cfg ign r) :
    x ∈ ign ∨ x = r.nameWithOwner := by
  unfold Stats.addIgnored at h
  split at h
  · exact Or.inl h
  · rcases List.mem_append.mp h with h1 | h2
    · exact Or.inl h1
    · exact Or.inr (by simpa using h2)

/-- Names reachable by folding the accumulation loop over a node
list. -/
theorem foldl_processRepo_repos_sub (cfg : Config) :
    ∀ (l : List RepoNode) (st : Accum) (x : String),
      x ∈ (l.foldl (Stats.processRepo cfg) st).repos →
      x ∈ st.repos ∨ x ∈ nodeNames l := by
  intro l
  induction l with
  | nil => intro st x h; exact Or.inl h
  | cons r t ih =>
    intro st x h
    rcases ih (Stats.processRepo cfg st r) x h with h1 | h2
    · rcases processRepo_repos_sub cfg st r x h1 with h3 | h3
      · exact Or.inl h3
      · exact Or.inr (by simp [nodeNames, h3])
    · exact Or.inr (by simp [nodeNames] at h2 ⊢; exact Or.inr h2)

/-- The ignored set survives folding the accumulation loop. -/
theorem foldl_processRepo_ignoredRepos (cfg : Config) :
    ∀ (l : List RepoNode) (st : Accum),
      (l.foldl (Stats.processRepo cfg) st).ignoredRepos = st.ignoredRepos := by
  intro l
  induction l with
  | nil => intro st; rfl
  | cons r t ih =>
    intro st
    rw [List.foldl_cons, ih, processRepo_ignoredRepos]

/-- Names reachable by folding the ignored-set loop over a node
list. -/
theorem foldl_addIgnored_sub (cfg : Config) :
    ∀ (l : List RepoNode) (ign : List String) (x : String),
      x ∈ l.foldl (Stats.addIgnored cfg) ign →
      x ∈ ign ∨ x ∈ nodeNames l := by
  intro l
  induction l with
  | nil => intro ign x h; exact Or.inl h
  | cons r t ih =>
    intro ign x h
    rcases ih (Stats.addIgnored cfg ign r) x h with h1 | h2
    · rcases addIgnored_sub cfg ign r x h1 with h3 | h3
      · exact Or.inl h3
      · exact Or.inr (by simp [nodeNames, h3])
    · exact Or.inr (by simp [nodeNames] at h2 ⊢; exact Or.inr h2)

/-- With forked repositories not considered, the included names after
one page come from the state or the page's owned nodes. -/
theorem processPage_repos_sub (cfg : Config)
    (hflag : cfg.considerForkedRepos = false) (st : Accum) (p : Page)
    (x : String) (h : x ∈ (Stats.processPage cfg st p).repos) :
    x ∈ st.repos ∨ x ∈ nodeNames p.repositories.nodes := by
  unfold Stats.processPage at h
  rw [hflag] at h
  simp only [Bool.false_eq_true, if_neg, Stats.pageRepos, hflag] at h
  rcases foldl_processRepo_repos_sub cfg _ _ x h with h1 | h1
  · exact Or.inl h1
  · exact Or.inr h1

/-- With forked repositories not considered, the ignored names after
one page come from the state or the page's contributed nodes. -/
theorem processPage_ignored_sub (cfg : Config)
    (hflag : cfg.considerForkedRepos = false) (st : Accum) (p : Page)
    (x : String) (h : x ∈ (Stats.processPage cfg st p).ignoredRepos) :
    x ∈ st.ignoredRepos ∨ x ∈ nodeNames p.repositoriesContributedTo.nodes := by
  unfold Stats.processPage at h
  rw [hflag] at h
  simp only [Bool.false_eq_true, if_neg, Stats.pageRepos, hflag] at h
  rw [foldl_processRepo_ignoredRepos] at h
  exact foldl_addIgnored_sub cfg _ _ x h

/-- With forked repositories considered, no page ever grows the ignored
set. -/
theorem processPage_ignored_const (cfg : Config)
    (hflag : cfg.considerForkedRepos = true) (st : Accum) (p : Page) :
    (Stats.processPage cfg st p).ignoredRepos = st.ignoredRepos := by
  unfold Stats.processPage
  rw [hflag]
  simp only [if_pos]
  rw [foldl_processRepo_ignoredRepos]

/-- With forked repositories not considered, the included names after
the whole loop come from the initial state or the script's owned
nodes. -/
theorem runLoop_repos_sub (cfg : Config)
    (hflag : cfg.considerForkedRepos = false) :
    ∀ (pages : List Page) (oc cc : Option String) (st : Accum) (x : String),
      x ∈ (Stats.runLoop cfg pages oc cc st).1.repos →
      x ∈ st.repos ∨ x ∈ ownedNames pages := by
  intro pages
  induction pages with
  | nil =>
    intro oc cc st x h
    rw [Stats.runLoop] at h
    rcases processPage_repos_sub cfg hflag st {} x h with h1 | h1
    · exact Or.inl h1
    · simp [nodeNames] at h1
  | cons p rest ih =>
    intro oc cc st x h
    rw [Stats.runLoop] at h
    by_cases hnx : Stats.hasNext p
    · rw [if_pos hnx] at h
      rcases ih _ _ _ x h with h1 | h1
      · rcases processPage_repos_sub cfg hflag st p x h1 with h2 | h2
        · exact Or.inl h2
        · exact Or.inr (by simp [ownedNames, List.mem_append]; exact Or.inl h2)
      · exact Or.inr (by simp [ownedNames, List.mem_append]; exact Or.inr h1)
    · rw [if_neg hnx] at h
      rcases processPage_repos_sub cfg hflag st p x h with h1 | h1
      · exact Or.inl h1
      · exact Or.inr (by simp [ownedNames, List.mem_append]; exact Or.inl h1)

/-- With forked repositories not considered, the ignored names after
the whole loop come from the initial state or the script's contributed
nodes. -/
theorem runLoop_ignored_sub (cfg : Config)
    (hflag : cfg.considerForkedRepos = false) :
    ∀ (pages : List Page) (oc cc : Option String) (st : Accum) (x : String),
      x ∈ (Stats.runLoop cfg pages oc cc st).1.ignoredRepos →
      x ∈ st.ignoredRepos ∨ x ∈ contribNames pages := by
  intro pages
  induction pages with
  | nil =>
    intro oc cc st x h
    rw [Stats.runLoop] at h
    rcases processPage_ignored_sub cfg hflag st {} x h with h1 | h1
    · exact Or.inl h1
    · simp [nodeNames] at h1
  | cons p rest ih =>
    intro oc cc st x h
    rw [Stats.runLoop] at h
    by_cases hnx : Stats.hasNext p
    · rw [if_pos hnx] at h
      rcases ih _ _ _ x h with h1 | h1
      · rcases processPage_ignored_sub cfg hflag st p x h1 with h2 | h2
        · exact Or.inl h2
        · exact Or.inr (by simp [contribNames, List.mem_append]; exact Or.inl h2)
      · exact Or.inr (by simp [contribNames, List.mem_append]; exact Or.inr h1)
    · rw [if_neg hnx] at h
      rcases processPage_ignored_sub cfg hflag st p x h with h1 | h1
      · exact Or.inl h1
      · exact Or.inr (by simp [contribNames, List.mem_append]; exact Or.inl h1)

/-- With forked repositories considered, the loop never grows the
ignored set. -/
theorem runLoop_ignored_const (cfg : Config)
    (hflag : cfg.considerForkedRepos = true) :
    ∀ (pages : List Page) (oc cc : Option String) (st : Accum),
      (Stats.runLoop cfg pages oc cc st).1.ignoredRepos = st.ignoredRepos := by
  intro pages
  induction pages with
  | nil =>
    intro oc cc st
    rw [Stats.runLoop]
    exact processPage_ignored_const cfg hflag st {}
  | cons p rest ih =>
    intro oc cc st
    rw [Stats.runLoop]
    by_cases hnx : Stats.hasNext p
    · rw [if_pos hnx]
      rw [ih, processPage_ignored_const cfg hflag st p]
    · rw [if_neg hnx]
      exact processPage_ignored_const cfg hflag st p

/-- An excluded name never enters the included set. -/
theorem processRepo_not_mem_repos (cfg : Config) (st : Accum) (r : RepoNode)
    (n : String) (hn : n ∈ cfg.excludeRepos) (h : n ∉ st.repos) :
    n ∉ (Stats.processRepo cfg st r).repos := by
  intro hmem
  by_cases hx : r.nameWithOwner ∈ cfg.excludeRepos
  · rw [processRepo_of_excluded cfg st r hx] at hmem
    exact h hmem
  · rcases processRepo_repos_sub cfg st r n hmem with h1 | h1
    · exact h h1
    · rw [h1] at hn
      exact hx hn

/-- An excluded name never enters the ignored set. -/
theorem addIgnored_not_mem (cfg : Config) (ign : List String) (r : RepoNode)
    (n : String) (hn : n ∈ cfg.excludeRepos) (h : n ∉ ign) :
    n ∉ Stats.addIgnored cfg ign r := by
  intro hmem
  by_cases hx : r.nameWithOwner ∈ cfg.excludeRepos
  · rw [addIgnored_of_excluded cfg ign r hx] at hmem
    exact h hmem
  · rcases addIgnored_sub cfg ign r n hmem with h1 | h1
    · exact h h1
    · rw [h1] at hn
      exact hx hn

/-- An excluded name enters neither set while one page is processed. -/
theorem processPage_not_mem (cfg : Config) (n : String)
    (hn : n ∈ cfg.excludeRepos) (st : Accum) (p : Page)
    (h1 : n ∉ st.repos) (h2 : n ∉ st.ignoredRepos) :
    n ∉ (Stats.processPage cfg st p).repos ∧
      n ∉ (Stats.processPage cfg st p).ignoredRepos := by
  unfold Stats.processPage
  constructor
  · refine foldl_preserve _ (fun a => n ∉ a.repos)
      (fun b x hb => processRepo_not_mem_repos cfg b x n hn hb) _ _ ?_
    by_cases hf : cfg.considerForkedRepos <;> simp [hf] <;> exact h1
  · rw [foldl_processRepo_ignoredRepos]
    by_cases hf : cfg.considerForkedRepos
    · simpa [hf] using h2
    · simp only [hf, Bool.false_eq_true, if_neg]
      refine foldl_preserve _ (fun a => n ∉ a)
        (fun b x hb => addIgnored_not_mem cfg b x n hn hb) _ _ ?_
      simpa using h2

/-- An excluded name enters neither set across the whole pagination
loop. -/
theorem runLoop_not_mem (cfg : Config) (n : String)
    (hn : n ∈ cfg.excludeRepos) :
    ∀ (pages : List Page) (oc cc : Option String) (st : Accum),
      n ∉ st.repos → n ∉ st.ignoredRepos →
      n ∉ (Stats.runLoop cfg pages oc cc st).1.repos ∧
        n ∉ (Stats.runLoop cfg pages oc cc st).1.ignoredRepos := by
  intro pages
  induction pages with
  | nil =>
    intro oc cc st h1 h2
    rw [Stats.runLoop]
    exact processPage_not_mem cfg n hn st {} h1 h2
  | cons p rest ih =>
    intro oc cc st h1 h2
    rw [Stats.runLoop]
    have hp := processPage_not_mem cfg n hn st p h1 h2
    by_cases hnx : Stats.hasNext p
    · rw [if_pos hnx]
      exact ih _ _ _ hp.1 hp.2
    · rw [if_neg hnx]
      exact hp

/-- Claim C4 counterexample: when the same identifier occurs among the owned
and among the contributed nodes, `get_stats` records it in the included
set and in the ignored set at once. -/
theorem c4_disjoint_counterexample :
    "A" ∈ (((Stats.getStats exCfg [exPageC4] {}).map
        fun r => r.1.repos.getD []).getD []) ∧
      "A" ∈ (((Stats.getStats exCfg [exPageC4] {}).map
        fun r => r.1.ignoredRepos.getD []).getD []) :=
  ⟨by decide, by decide⟩

/-- Claim C4 amended: provided no identifier occurs both among the owned
nodes and among the contributed nodes across the run's pages — which
the overview query's `includeUserRepositories: false` guarantees for
real responses — the included and ignored sets of a completed
`get_stats` are disjoint; and unconditionally, a repository already in
the included set is skipped by the accumulation loop, so its
stargazers, forks and languages are added at most once. -/
theorem c4_inclusion_amended (cfg : Config) (pages : List Page)
    (s s' : StatsState) (c : Nat)
    (hrun : Stats.getStats cfg pages s = some (s', c))
    (hdisj : ∀ x, x ∈ ownedNames pages → x ∉ contribNames pages) :
    (∀ x, x ∈ s'.repos.getD [] → x ∉ s'.ignoredRepos.getD []) ∧
    (∀ (st : Accum) (r : RepoNode), r.nameWithOwner ∈ st.repos →
      Stats.processRepo cfg st r = st) := by
  refine ⟨?_, fun st r h => processRepo_of_mem cfg st r h⟩
  unfold Stats.getStats at hrun
  obtain ⟨L, hcp, heq⟩ := Option.map_eq_some'.mp hrun
  injection heq with h1 h2
  subst h1
  intro x hx hx2
  simp only [Option.getD_some] at hx hx2
  by_cases hf : cfg.considerForkedRepos
  · rw [runLoop_ignored_const cfg hf] at hx2
    simp [Stats.initAccum] at hx2
  · rcases runLoop_repos_sub cfg (by simpa using hf) pages none none
        (Stats.initAccum s) x hx with h1 | h1
    · simp [Stats.initAccum] at h1
    · rcases runLoop_ignored_sub cfg (by simpa using hf) pages none none
          (Stats.initAccum s) x hx2 with h2 | h2
      · simp [Stats.initAccum] at h2
      · exact hdisj x h1 h2

/-- Witness for C4 amended: the two-page script has no contributed
nodes, so the final sets `["A", "B"]` and `[]` are disjoint, and a
duplicate of an already-recorded repository is a no-op. -/
theorem c4_inclusion_amended_witness :
    (∀ x, x ∈ (["A", "B"] : List String) → x ∉ ([] : List String)) ∧
      (∀ (st : Accum) (r : RepoNode), r.nameWithOwner ∈ st.repos →
        Stats.processRepo exCfg st r = st) := by
  have h := c4_inclusion_amended exCfg [exPage1, exPage2] {}
    { name := some "No Name"
      stargazers := some 5
      forks := some 1
      languages := some
        [("Py", { size := 40, occurrences := 2, color := none,
                  prop := some (4000, 50) }),
         ("C", { size := 10, occurrences := 1, color := none,
                 prop := some (1000, 50) })]
      repos := some ["A", "B"]
      ignoredRepos := some [] }
    2 (by decide) (by decide)
  exact ⟨fun x hx => h.1 x (by simpa using hx), h.2⟩

/-- Claim C5: an excluded repository name contributes nothing — removing its
nodes from every page leaves `get_stats` unchanged, the name ends up in
neither the included nor the ignored set, and therefore the
`lines_changed` and `views` accumulations are unaffected by whatever
the REST endpoints would answer for it. -/
theorem c5_excluded_repo_contributes_nothing (cfg : Config) (n : String)
    (hn : n ∈ cfg.excludeRepos) :
    (∀ (pages : List Page) (s : StatsState),
      Stats.getStats cfg (pages.map (filterPage n)) s =
        Stats.getStats cfg pages s) ∧
    (∀ (pages : List Page) (s s' : StatsState) (c : Nat),
      Stats.getStats cfg pages s = some (s', c) →
      n ∉ s'.repos.getD [] ∧ n ∉ s'.ignoredRepos.getD [] ∧
      (∀ f g : String → List CEntry, (∀ m, m ≠ n → f m = g m) →
        Stats.linesTotal cfg.username
            (setUnion (s'.repos.getD []) (s'.ignoredRepos.getD [])) f =
          Stats.linesTotal cfg.username
            (setUnion (s'.repos.getD []) (s'.ignoredRepos.getD [])) g) ∧
      (∀ f g : String → List Int, (∀ m, m ≠ n → f m = g m) →
        Stats.viewsTotal (s'.repos.getD []) f =
          Stats.viewsTotal (s'.repos.getD []) g)) := by
  constructor
  · intro pages s
    unfold Stats.getStats
    rw [runLoop_filterPage cfg n hn]
  · intro pages s s' c hrun
    unfold Stats.getStats at hrun
    obtain ⟨L, hcp, heq⟩ := Option.map_eq_some'.mp hrun
    injection heq with h1 h2
    subst h1
    have hmem := runLoop_not_mem cfg n hn pages none none (Stats.initAccum s)
      (by simp [Stats.initAccum]) (by simp [Stats.initAccum])
    simp only [Option.getD_some]
    have hu : n ∉ setUnion
        (Stats.runLoop cfg pages none none (Stats.initAccum s)).1.repos
        (Stats.runLoop cfg pages none none (Stats.initAccum s)).1.ignoredRepos := by
      intro hx
      rcases List.mem_append.mp hx with h3 | h3
      · exact hmem.1 h3
      · exact hmem.2 (List.mem_of_mem_filter h3)
    refine ⟨hmem.1, hmem.2, ?_, ?_⟩
    · intro f g hfg
      unfold Stats.linesTotal
      have : ∀ m ∈ setUnion
          (Stats.runLoop cfg pages none none (Stats.initAccum s)).1.repos
          (Stats.runLoop cfg pages none none (Stats.initAccum s)).1.ignoredRepos,
          f m = g m := fun m hm => hfg m (fun he => hu (he ▸ hm))
      simp only [Prod.mk.injEq]
      constructor <;>
        exact congrArg List.sum
          (List.map_congr_left fun m hm => by rw [this m hm])
    · intro f g hfg
      unfold Stats.viewsTotal
      have : ∀ m ∈
          (Stats.runLoop cfg pages none none (Stats.initAccum s)).1.repos,
          f m = g m := fun m hm => hfg m (fun he => hmem.1 (he ▸ hm))
      exact congrArg List.sum
        (List.map_congr_left fun m hm => by rw [this m hm])

/-- Witness for C5: with `"X"` excluded, a page carrying `"X"` among
the owned and the contributed nodes produces the same run as the page
with those nodes removed, and `"X"` ends up in neither set. -/
theorem c5_excluded_repo_contributes_nothing_witness :
    Stats.getStats exCfgExcl ([exPageC5].map (filterPage "X")) {} =
        Stats.getStats exCfgExcl [exPageC5] {} ∧
      "X" ∉ (["B"] : List String) ∧ "X" ∉ ([] : List String) := by
  have h := c5_excluded_repo_contributes_nothing exCfgExcl "X" (by decide)
  have h2 := h.2 [exPageC5] {}
    { name := some "No Name"
      stargazers := some 2
      forks := some 0
      languages := some
        [("Py", { size := 30, occurrences := 1, color := none,
                  prop := some (3000, 40) }),
         ("C", { size := 10, occurrences := 1, color := none,
                 prop := some (1000, 40) })]
      repos := some ["B"]
      ignoredRepos := some [] }
    1 (by decide)
  exact ⟨h.1 [exPageC5] {}, h2.1, h2.2.1⟩

end GST
